import Mathlib

/-!
Verification of the bright_choice normalization and change-detection pipeline.

Shallow embedding of the scraper core:
* hash engine (`generateSpecHash`, `buildSpecSnapshot`),
* change detector (`detectChanges`, `processProductChange`),
* attribute mapper (`findMapping`, `mapAttributes`),
* geo resolver (`getBrandGeo`, `getGeoVariants`),
* unit converter (`convertUnit`, `extractNumeric`, `extractUnit`, `parseAndConvert`),
* validator (`validateProduct`).

JavaScript numbers are modelled as exact rationals (`ℚ`); the floating-point
representation is immaterial to the properties proved here.  JavaScript
primitive values are modelled by `JsVal`.
-/

namespace BrightChoice

/-- A JavaScript primitive value as it occurs in the scraper's records:
`undefined`, `null`, a string, a number (modelled as `ℚ`) or a boolean. -/
inductive JsVal where
  | undef
  | null
  | str (s : String)
  | num (q : ℚ)
  | bool (b : Bool)
deriving DecidableEq

/-- `String.prototype.trim()`: drop leading and trailing whitespace. -/
def jsTrim (s : String) : String :=
  String.mk (((s.data.dropWhile Char.isWhitespace).reverse.dropWhile Char.isWhitespace).reverse)

/-- `String.prototype.toLowerCase()`: character-wise lowercasing. -/
def jsToLower (s : String) : String :=
  String.mk (s.data.map Char.toLower)

/-- `Math.round(q * 100) / 100` — round to 2 decimal places.
`Math.round` rounds half-up (towards `+∞`), i.e. `⌊x + 1/2⌋`. -/
def jsRound2 (q : ℚ) : ℚ :=
  (⌊q * 100 + 1 / 2⌋ : ℚ) / 100

/-- `Math.round(q * 10) / 10` — round to 1 decimal place. -/
def jsRound1 (q : ℚ) : ℚ :=
  (⌊q * 10 + 1 / 2⌋ : ℚ) / 10

/-! ### Hash engine (`src/unnamed/part_000`, hashEngine)

`generateSpecHash` in the source sorts the keys, normalizes every value
(trim + lowercase strings, round numbers to 2 decimals, drop
null/undefined), serializes the resulting object with `JSON.stringify`
and returns the SHA-256 hex digest of that string.  SHA-256 and
`JSON.stringify` (at sorted, duplicate-free keys) are deterministic
functions of the canonical key/value sequence built beforehand, so the
digest is modelled by that canonical sequence itself: two inputs receive
the same digest exactly when their canonical sequences agree. -/

/-- Value normalization inside `generateSpecHash`:
strings are trimmed then lowercased, numbers rounded to 2 decimals,
`null`/`undefined` entries are dropped, anything else is kept as-is. -/
def normalizeVal : JsVal → Option JsVal
  | JsVal.str s => some (JsVal.str (jsToLower (jsTrim s)))
  | JsVal.num q => some (JsVal.num (jsRound2 q))
  | JsVal.bool b => some (JsVal.bool b)
  | JsVal.null => none
  | JsVal.undef => none

/-- Lexicographic comparison of strings by code point, modelling the default
JavaScript `Array.prototype.sort()` comparison on the key strings. -/
def charListLe : List Char → List Char → Bool
  | [], _ => true
  | _ :: _, [] => false
  | a :: as, b :: bs =>
    if a < b then true
    else if b < a then false
    else charListLe as bs

/-- String comparison used for key sorting. -/
def keyLe (a b : String) : Bool :=
  charListLe a.data b.data

/-- `Object.keys(specs).sort()` — sort a key list. -/
def sortKeys (l : List String) : List String :=
  List.insertionSort (fun a b => keyLe a b = true) l

/-- `specs[k]` on an association-list model of a JavaScript object:
the value at the first occurrence of key `k`, if any. -/
def jsGet (o : List (String × JsVal)) (k : String) : Option JsVal :=
  (o.find? (fun p => p.1 == k)).map Prod.snd

/-- `specs[k]`, with absent keys reading as `undefined`. -/
def jsGetD (o : List (String × JsVal)) (k : String) : JsVal :=
  (jsGet o k).getD JsVal.undef

/-- Sorted key list of a snapshot. -/
def sortedKeys (specs : List (String × JsVal)) : List String :=
  sortKeys (specs.map Prod.fst)

/-- The hash engine, modelled up to the (deterministic, injectivity-irrelevant)
`JSON.stringify` + SHA-256 step: the canonical sorted/normalized key-value
sequence whose serialization is digested. -/
def generateSpecHash (specs : List (String × JsVal)) : List (String × JsVal) :=
  (sortedKeys specs).filterMap (fun k =>
    match jsGet specs k with
    | some v => (normalizeVal v).map (fun nv => (k, nv))
    | none => none)

/-- The 11 spec-relevant fields selected by `buildSpecSnapshot`. -/
def SPEC_FIELDS : List String :=
  ["watts", "lumens", "efficiency", "cct", "cri", "lifespan", "warranty",
   "price", "cert_ul", "cert_dlc", "cert_energy_star"]

/-- `buildSpecSnapshot`: project a product onto the 11 spec-relevant fields
(absent fields appear with value `undefined`, as in the source object). -/
def buildSpecSnapshot (product : List (String × JsVal)) : List (String × JsVal) :=
  SPEC_FIELDS.map (fun f => (f, jsGetD product f))

/-! ### Order lemmas for the key sort -/

theorem charListLe_total (a b : List Char) :
    charListLe a b = true ∨ charListLe b a = true := by
  induction a generalizing b with
  | nil => left; rfl
  | cons x xs ih =>
    cases b with
    | nil => right; rfl
    | cons y ys =>
      by_cases h1 : x < y
      · left; simp [charListLe, h1]
      · by_cases h2 : y < x
        · right; simp [charListLe, h2]
        · rcases ih ys with h | h
          · left; simp [charListLe, h1, h2, h]
          · right; simp [charListLe, h1, h2, h]

theorem charListLe_trans {a b c : List Char}
    (hab : charListLe a b = true) (hbc : charListLe b c = true) :
    charListLe a c = true := by
  induction a generalizing b c with
  | nil => rfl
  | cons x xs ih =>
    cases b with
    | nil => simp [charListLe] at hab
    | cons y ys =>
      cases c with
      | nil => simp [charListLe] at hbc
      | cons z zs =>
        by_cases hxy : x < y
        · by_cases hyz : y < z
          · simp [charListLe, lt_trans hxy hyz]
          · by_cases hzy : z < y
            · simp [charListLe, hyz, hzy] at hbc
            · have : y = z := le_antisymm (not_lt.mp hzy) (not_lt.mp hyz)
              subst this
              simp [charListLe, hxy]
        · by_cases hyx : y < x
          · simp [charListLe, hxy, hyx] at hab
          · have hxyeq : x = y := le_antisymm (not_lt.mp hyx) (not_lt.mp hxy)
            subst hxyeq
            by_cases hyz : x < z
            · simp [charListLe, hyz]
            · by_cases hzy : z < x
              · simp [charListLe, hyz, hzy] at hbc
              · simp [charListLe, hxy, hyx] at hab
                simp [charListLe, hyz, hzy] at hbc
                simp [charListLe, hyz, hzy, ih hab hbc]

theorem charListLe_antisymm {a b : List Char}
    (hab : charListLe a b = true) (hba : charListLe b a = true) : a = b := by
  induction a generalizing b with
  | nil =>
    cases b with
    | nil => rfl
    | cons y ys => simp [charListLe] at hba
  | cons x xs ih =>
    cases b with
    | nil => simp [charListLe] at hab
    | cons y ys =>
      by_cases hxy : x < y
      · simp [charListLe, hxy, asymm hxy] at hba
      · by_cases hyx : y < x
        · simp [charListLe, hxy, hyx] at hab
        · have hxyeq : x = y := le_antisymm (not_lt.mp hyx) (not_lt.mp hxy)
          subst hxyeq
          simp [charListLe, hxy] at hab hba
          rw [ih hab hba]

instance : IsTotal String (fun a b => keyLe a b = true) :=
  ⟨fun a b => charListLe_total a.data b.data⟩

instance : IsTrans String (fun a b => keyLe a b = true) :=
  ⟨fun _ _ _ hab hbc => charListLe_trans hab hbc⟩

instance : IsAntisymm String (fun a b => keyLe a b = true) := by
  constructor
  intro a b hab hba
  cases a with
  | mk da =>
    cases b with
    | mk db => exact congrArg String.mk (charListLe_antisymm hab hba)

theorem sortKeys_eq_of_perm {l₁ l₂ : List String} (h : l₁.Perm l₂) :
    sortKeys l₁ = sortKeys l₂ := by
  apply List.eq_of_perm_of_sorted (r := fun a b => keyLe a b = true)
  · exact (List.perm_insertionSort _ l₁).trans (h.trans (List.perm_insertionSort _ l₂).symm)
  · exact List.sorted_insertionSort _ l₁
  · exact List.sorted_insertionSort _ l₂

/-! ### Lookup lemmas -/

theorem jsGet_cons (p : String × JsVal) (o : List (String × JsVal)) (k : String) :
    jsGet (p :: o) k = if p.1 = k then some p.2 else jsGet o k := by
  by_cases h : p.1 = k <;> simp [jsGet, List.find?_cons, h]

theorem jsGet_mem {o : List (String × JsVal)} {k : String} {v : JsVal}
    (h : jsGet o k = some v) : (k, v) ∈ o := by
  unfold jsGet at h
  cases hf : o.find? (fun p => p.1 == k) with
  | none => rw [hf] at h; cases h
  | some p =>
    rw [hf] at h
    have hp := List.find?_some hf
    have hm : p ∈ o := List.mem_of_find?_eq_some hf
    have hk : p.1 = k := by simpa using hp
    have hv : p.2 = v := by simpa using h
    have : p = (k, v) := by
      cases p
      simp_all
    rwa [this] at hm

theorem jsGet_eq_some_of_mem {o : List (String × JsVal)} {k : String} {v : JsVal}
    (hnd : (o.map Prod.fst).Nodup) (hm : (k, v) ∈ o) : jsGet o k = some v := by
  induction o with
  | nil => cases hm
  | cons p rest ih =>
    rcases List.mem_cons.mp hm with h | h
    · rw [← h, jsGet_cons]
      simp
    · rw [jsGet_cons]
      have hnd2 := hnd
      rw [List.map_cons, List.nodup_cons] at hnd2
      obtain ⟨hnotin, hndrest⟩ := hnd2
      have hk : k ∈ rest.map Prod.fst :=
        List.mem_map.mpr ⟨(k, v), h, rfl⟩
      have hne : p.1 ≠ k := fun he => hnotin (he ▸ hk)
      rw [if_neg hne]
      exact ih hndrest h

theorem jsGet_eq_none {o : List (String × JsVal)} {k : String} :
    jsGet o k = none ↔ k ∉ o.map Prod.fst := by
  unfold jsGet
  rw [Option.map_eq_none', List.find?_eq_none]
  constructor
  · intro h hk
    rcases List.mem_map.mp hk with ⟨p, hp, hfst⟩
    have hnk := h p hp
    rw [beq_iff_eq] at hnk
    exact hnk hfst
  · intro h p hp
    rw [beq_iff_eq]
    intro he
    exact h (List.mem_map.mpr ⟨p, hp, he⟩)

theorem jsGet_perm {o₁ o₂ : List (String × JsVal)} (h : o₁.Perm o₂)
    (hnd : (o₁.map Prod.fst).Nodup) (k : String) : jsGet o₁ k = jsGet o₂ k := by
  cases hv : jsGet o₁ k with
  | some v =>
    symm
    exact jsGet_eq_some_of_mem ((h.map Prod.fst).nodup_iff.mp hnd)
      (h.mem_iff.mp (jsGet_mem hv))
  | none =>
    symm
    rw [jsGet_eq_none]
    intro hk
    exact (jsGet_eq_none.mp hv) (((h.map Prod.fst).mem_iff).mpr hk)

/-! ### Claim C1 -/

/-- Two values differ only by casing and leading/trailing whitespace of a
string: strings must agree after trim + lowercase, anything else must be
equal. -/
def valVariant : JsVal → JsVal → Prop
  | JsVal.str a, JsVal.str b => jsToLower (jsTrim a) = jsToLower (jsTrim b)
  | v, w => v = w

theorem normalizeVal_variant {v w : JsVal} (h : valVariant v w) :
    normalizeVal v = normalizeVal w := by
  cases v <;> cases w <;> simp_all [valVariant, normalizeVal]

theorem forall₂_map_fst {R : JsVal → JsVal → Prop}
    {o₁ o₂ : List (String × JsVal)}
    (h : List.Forall₂ (fun p q => p.1 = q.1 ∧ R p.2 q.2) o₁ o₂) :
    o₁.map Prod.fst = o₂.map Prod.fst := by
  induction h with
  | nil => rfl
  | cons hpq _ ih => simp [hpq.1, ih]

theorem jsGet_variant {o₁ o₂ : List (String × JsVal)}
    (h : List.Forall₂ (fun p q => p.1 = q.1 ∧ valVariant p.2 q.2) o₁ o₂)
    (k : String) :
    (jsGet o₁ k = none ∧ jsGet o₂ k = none) ∨
      (∃ v w, jsGet o₁ k = some v ∧ jsGet o₂ k = some w ∧ valVariant v w) := by
  induction h with
  | nil => left; exact ⟨rfl, rfl⟩
  | @cons a b l₁ l₂ hpq htail ih =>
    by_cases hk : a.1 = k
    · right
      refine ⟨a.2, b.2, ?_, ?_, hpq.2⟩
      · rw [jsGet_cons, if_pos hk]
      · rw [jsGet_cons, if_pos (hpq.1.symm.trans hk)]
    · rw [jsGet_cons, jsGet_cons, if_neg hk,
        if_neg (fun hbk => hk (hpq.1.trans hbk))]
      exact ih

/-- Claim C1: `generateSpecHash` is deterministic — repeated calls on the same
snapshot agree, the digest does not depend on the key insertion order of the
input mapping (for duplicate-free key sets, as in a JavaScript object), and
string values that differ only in casing or leading/trailing whitespace
(equivalently: that agree after trim + lowercase) produce the same digest. -/
theorem generateSpecHash_deterministic :
    (∀ s : List (String × JsVal), generateSpecHash s = generateSpecHash s) ∧
    (∀ s₁ s₂ : List (String × JsVal), (s₁.map Prod.fst).Nodup → s₁.Perm s₂ →
      generateSpecHash s₁ = generateSpecHash s₂) ∧
    (∀ s₁ s₂ : List (String × JsVal),
      List.Forall₂ (fun p q => p.1 = q.1 ∧ valVariant p.2 q.2) s₁ s₂ →
      generateSpecHash s₁ = generateSpecHash s₂) := by
  refine ⟨fun s => rfl, ?_, ?_⟩
  · intro s₁ s₂ hnd hperm
    have hkeys : sortedKeys s₁ = sortedKeys s₂ :=
      sortKeys_eq_of_perm (hperm.map Prod.fst)
    have hfun :
        (fun k =>
          match jsGet s₁ k with
          | some v => (normalizeVal v).map (fun nv => (k, nv))
          | none => none) =
        (fun k =>
          match jsGet s₂ k with
          | some v => (normalizeVal v).map (fun nv => (k, nv))
          | none => none) :=
      funext (fun k => by rw [jsGet_perm hperm hnd k])
    unfold generateSpecHash
    rw [hkeys, hfun]
  · intro s₁ s₂ hf
    have hkeys : sortedKeys s₁ = sortedKeys s₂ := by
      unfold sortedKeys
      rw [forall₂_map_fst hf]
    have hfun :
        (fun k =>
          match jsGet s₁ k with
          | some v => (normalizeVal v).map (fun nv => (k, nv))
          | none => none) =
        (fun k =>
          match jsGet s₂ k with
          | some v => (normalizeVal v).map (fun nv => (k, nv))
          | none => none) := by
      funext k
      rcases jsGet_variant hf k with ⟨h1, h2⟩ | ⟨v, w, h1, h2, hvw⟩
      · rw [h1, h2]
      · rw [h1, h2]
        simp [normalizeVal_variant hvw]
    unfold generateSpecHash
    rw [hkeys, hfun]

/-- Witness for C1: a key-order change combined with a case/whitespace change
of a string value leaves the digest unchanged on a concrete snapshot. -/
theorem generateSpecHash_deterministic_witness :
    generateSpecHash [("b", JsVal.num 1), ("a", JsVal.str " X")] =
      generateSpecHash [("a", JsVal.str "x"), ("b", JsVal.num 1)] := by
  have h1 := generateSpecHash_deterministic.2.1
    [("b", JsVal.num 1), ("a", JsVal.str " X")]
    [("a", JsVal.str " X"), ("b", JsVal.num 1)]
    (by decide) (by decide)
  have h2 := generateSpecHash_deterministic.2.2
    [("a", JsVal.str " X"), ("b", JsVal.num 1)]
    [("a", JsVal.str "x"), ("b", JsVal.num 1)]
    (List.Forall₂.cons
      ⟨rfl, (by decide : jsToLower (jsTrim " X") = jsToLower (jsTrim "x"))⟩
      (List.Forall₂.cons ⟨rfl, rfl⟩ List.Forall₂.nil))
  exact h1.trans h2

/-! ### Change detector (`src/services/scraper/src/detector/changeDetector.ts`)

Storage (Supabase) is modelled by an explicit `Db` record; the two fallible
inserts are parameterized by boolean success flags (`versionInsertOk`,
`logInsertOk`) standing for the presence/absence of a transient storage
error, and the wall-clock timestamp by a `now` string. -/

/-- `String(v)` for the diff: nullish values stay `null` (`Option.none`),
other values are stringified.  The exact JS numeral formatting is abstracted
by `toString` on `ℚ`; the properties proved here use it only as a function. -/
def jsString : JsVal → Option String
  | JsVal.null => none
  | JsVal.undef => none
  | JsVal.str s => some s
  | JsVal.num q => some (toString q)
  | JsVal.bool b => some (cond b "true" "false")

/-- `new Set(l)` iterated in insertion order: keep first occurrences. -/
def jsSetList (l : List String) : List String :=
  l.foldl (fun acc k => if k ∈ acc then acc else acc ++ [k]) []

/-- One field-level difference, as recorded by the change detector. -/
structure FieldChange where
  fieldName : String
  oldValue : Option String
  newValue : Option String
deriving DecidableEq

/-- `detectChanges`: stringify both sides of every key in the union of key
sets; keys whose stringified values differ are collected; `null` (`none`)
is returned when nothing differs. -/
def detectChanges (existing incoming : List (String × JsVal)) :
    Option (List FieldChange) :=
  let changes := (jsSetList (existing.map Prod.fst ++ incoming.map Prod.fst)).filterMap
    (fun k =>
      let oldStr := jsString (jsGetD existing k)
      let newStr := jsString (jsGetD incoming k)
      if oldStr ≠ newStr then some ⟨k, oldStr, newStr⟩ else none)
  if changes.isEmpty then none else some changes

/-- A row of the `products` table (the columns the detector touches, plus the
spec columns read by `buildSpecSnapshot`). -/
structure ProductRow where
  id : String
  brand : String
  model : String
  spec_hash : Option (List (String × JsVal))
  last_scraped_at : Option String
  specs : List (String × JsVal)
deriving DecidableEq

/-- A row of the `product_versions` table. -/
structure VersionRow where
  id : Nat
  product_id : String
  version_number : Nat
  snapshot : List (String × JsVal)
  spec_hash : List (String × JsVal)
  change_summary : String
deriving DecidableEq

/-- A row of the `change_logs` table. -/
structure ChangeLogRow where
  product_id : String
  product_version_id : Nat
  field_name : String
  old_value : Option String
  new_value : Option String
deriving DecidableEq

/-- The storage state seen by the change detector. -/
structure Db where
  products : List ProductRow
  product_versions : List VersionRow
  change_logs : List ChangeLogRow
deriving DecidableEq

/-- The detector's result record `{isNew, isChanged}`. -/
structure ChangeResult where
  isNew : Bool
  isChanged : Bool
deriving DecidableEq

/-- The `order by version_number desc limit 1` query:
`latestVersion?.version_number || 0`. -/
def latestVersionNumber (db : Db) (productId : String) : Nat :=
  ((db.product_versions.filter (fun v => v.product_id == productId)).map
    (fun v => v.version_number)).foldl max 0

/-- The human-readable change summary string. -/
def changeSummaryOf : Option (List FieldChange) → String
  | some cs => String.intercalate "; " (cs.map (fun c =>
      c.fieldName ++ ": " ++ c.oldValue.getD "null" ++ " → " ++ c.newValue.getD "null"))
  | none => "Initial version"

/-- Row lookup used by the orchestrator to read a product back. -/
def findProduct (db : Db) (pid : String) : Option ProductRow :=
  db.products.find? (fun p => p.id == pid)

/-- `processProductChange`: compare hashes; on mismatch insert a version row,
then change-log rows, then update the product's `spec_hash` and
`last_scraped_at`.  A failing version insert aborts with `isChanged:false`;
a failing change-log insert is logged but does not stop the hash update. -/
def processProductChange (versionInsertOk logInsertOk : Bool) (now : String)
    (db : Db) (productId : String) (existingProduct : ProductRow)
    (incomingSpecs : List (String × JsVal)) : ChangeResult × Db :=
  let existingSnapshot := buildSpecSnapshot existingProduct.specs
  let incomingSnapshot := buildSpecSnapshot incomingSpecs
  let newHash := generateSpecHash incomingSnapshot
  if existingProduct.spec_hash = some newHash then (⟨false, false⟩, db)
  else
    let nextVersion := latestVersionNumber db productId + 1
    let changes := detectChanges existingSnapshot incomingSnapshot
    let summary := changeSummaryOf changes
    if versionInsertOk then
      let vid := db.product_versions.length
      let db₁ : Db := { db with product_versions := db.product_versions ++
        [⟨vid, productId, nextVersion, incomingSnapshot, newHash, summary⟩] }
      let db₂ : Db :=
        match changes with
        | some cs =>
          if logInsertOk then
            { db₁ with change_logs := db₁.change_logs ++ cs.map (fun c =>
                ⟨productId, vid, c.fieldName, c.oldValue, c.newValue⟩) }
          else db₁
        | none => db₁
      let db₃ : Db := { db₂ with products := db₂.products.map (fun p =>
          if p.id = productId then
            { p with spec_hash := some newHash, last_scraped_at := some now }
          else p) }
      (⟨false, true⟩, db₃)
    else (⟨false, false⟩, db)

/-! ### Claims C2, C3, C10 -/

theorem ppc_noop {ok lok : Bool} {now : String} {db : Db} {pid : String}
    {ep : ProductRow} {inc : List (String × JsVal)}
    (h : ep.spec_hash = some (generateSpecHash (buildSpecSnapshot inc))) :
    processProductChange ok lok now db pid ep inc = (⟨false, false⟩, db) := by
  simp only [processProductChange]
  rw [if_pos h]

theorem find?_map_id_pres {l : List ProductRow} (f : ProductRow → ProductRow)
    (pid : String) (hf : ∀ p, (f p).id = p.id) :
    (l.map f).find? (fun p => p.id == pid) =
      (l.find? (fun p => p.id == pid)).map f := by
  induction l with
  | nil => rfl
  | cons p rest ih =>
    rw [List.map_cons]
    by_cases h : p.id = pid
    · simp [List.find?_cons, hf p, h]
    · simp [List.find?_cons, hf p, h, ih]

theorem ppc_changed_products {lok : Bool} {now : String} {db : Db} {pid : String}
    {ep : ProductRow} {inc : List (String × JsVal)}
    (hneq : ep.spec_hash ≠ some (generateSpecHash (buildSpecSnapshot inc))) :
    (processProductChange true lok now db pid ep inc).2.products =
      db.products.map (fun p =>
        if p.id = pid then
          { p with spec_hash := some (generateSpecHash (buildSpecSnapshot inc)),
                   last_scraped_at := some now }
        else p) := by
  simp only [processProductChange]
  rw [if_neg hneq]
  simp only [if_true]
  split <;> (try split) <;> rfl

theorem ppc_changed_versions {lok : Bool} {now : String} {db : Db} {pid : String}
    {ep : ProductRow} {inc : List (String × JsVal)}
    (hneq : ep.spec_hash ≠ some (generateSpecHash (buildSpecSnapshot inc))) :
    (processProductChange true lok now db pid ep inc).2.product_versions.length =
      db.product_versions.length + 1 := by
  simp only [processProductChange]
  rw [if_neg hneq]
  simp only [if_true]
  split <;> (try split) <;> simp

theorem ppc_find_after {lok : Bool} {now : String} {db : Db} {pid : String}
    {ep : ProductRow} {inc : List (String × JsVal)}
    (hfind : findProduct db pid = some ep)
    (hneq : ep.spec_hash ≠ some (generateSpecHash (buildSpecSnapshot inc))) :
    findProduct (processProductChange true lok now db pid ep inc).2 pid =
      some { ep with spec_hash := some (generateSpecHash (buildSpecSnapshot inc)),
                     last_scraped_at := some now } := by
  have hid : ep.id = pid := by
    have := List.find?_some hfind
    simpa using this
  unfold findProduct
  rw [ppc_changed_products hneq]
  rw [find?_map_id_pres _ pid (fun p => by by_cases h : p.id = pid <;> simp [h])]
  unfold findProduct at hfind
  rw [hfind, Option.map_some']
  rw [if_pos hid]

/-- Claim C2: when the stored `spec_hash` equals the hash of the incoming
snapshot, `processProductChange` returns `{isNew:false, isChanged:false}` and
leaves the storage state completely untouched; consequently a successful
changed run adds exactly one version row and a second run with identical
incoming data (on the product row read back from storage) is a no-op. -/
theorem processProductChange_unchanged :
    (∀ (ok lok : Bool) (now : String) (db : Db) (pid : String) (ep : ProductRow)
        (inc : List (String × JsVal)),
        ep.spec_hash = some (generateSpecHash (buildSpecSnapshot inc)) →
        processProductChange ok lok now db pid ep inc = (⟨false, false⟩, db)) ∧
    (∀ (lok lok₂ : Bool) (now now₂ : String) (db : Db) (pid : String)
        (ep ep₂ : ProductRow) (inc : List (String × JsVal)),
        findProduct db pid = some ep →
        ep.spec_hash ≠ some (generateSpecHash (buildSpecSnapshot inc)) →
        findProduct (processProductChange true lok now db pid ep inc).2 pid = some ep₂ →
        (processProductChange true lok now db pid ep inc).2.product_versions.length =
            db.product_versions.length + 1 ∧
          processProductChange true lok₂ now₂
              (processProductChange true lok now db pid ep inc).2 pid ep₂ inc =
            (⟨false, false⟩, (processProductChange true lok now db pid ep inc).2)) := by
  constructor
  · intro ok lok now db pid ep inc h
    exact ppc_noop h
  · intro lok lok₂ now now₂ db pid ep ep₂ inc hfind hneq hfind₂
    refine ⟨ppc_changed_versions hneq, ?_⟩
    have h₂ := (ppc_find_after hfind hneq).symm.trans hfind₂
    have hhash : ep₂.spec_hash = some (generateSpecHash (buildSpecSnapshot inc)) := by
      have := Option.some.inj h₂
      rw [← this]
    exact ppc_noop hhash

/-- Witness for C2: concrete one-product database; the hash-equal call is the
identity on storage, and after one successful changed run the second run with
the same incoming data is a no-op while exactly one version row was added. -/
theorem processProductChange_unchanged_witness :
    (processProductChange true true "t"
        (Db.mk [ProductRow.mk "p1" "b" "m" none none []] [] [])
        "p1"
        (ProductRow.mk "p1" "b" "m"
          (some (generateSpecHash (buildSpecSnapshot [("cert_ul", JsVal.bool true)])))
          none [])
        [("cert_ul", JsVal.bool true)] =
      (⟨false, false⟩, Db.mk [ProductRow.mk "p1" "b" "m" none none []] [] [])) ∧
    ((processProductChange true true "t"
        (Db.mk [ProductRow.mk "p1" "b" "m" none none []] [] [])
        "p1" (ProductRow.mk "p1" "b" "m" none none [])
        [("cert_ul", JsVal.bool true)]).2.product_versions.length =
      (Db.mk [ProductRow.mk "p1" "b" "m" none none []] [] []).product_versions.length + 1 ∧
    processProductChange true true "u"
        (processProductChange true true "t"
          (Db.mk [ProductRow.mk "p1" "b" "m" none none []] [] [])
          "p1" (ProductRow.mk "p1" "b" "m" none none [])
          [("cert_ul", JsVal.bool true)]).2
        "p1"
        (ProductRow.mk "p1" "b" "m"
          (some (generateSpecHash (buildSpecSnapshot [("cert_ul", JsVal.bool true)])))
          (some "t") [])
        [("cert_ul", JsVal.bool true)] =
      (⟨false, false⟩,
        (processProductChange true true "t"
          (Db.mk [ProductRow.mk "p1" "b" "m" none none []] [] [])
          "p1" (ProductRow.mk "p1" "b" "m" none none [])
          [("cert_ul", JsVal.bool true)]).2)) := by
  refine ⟨?_, ?_⟩
  · exact processProductChange_unchanged.1 true true "t" _ "p1" _ _ rfl
  · exact processProductChange_unchanged.2 true true "t" "u" _ "p1" _ _ _
      (by decide) (by decide) (by decide)

/-- Claim C3: a run in which the hashes differ but the `ProductVersion`
insert fails is aborted atomically — the storage state is returned
unchanged (no change-log rows, no `spec_hash`/timestamp update) and the
result is `{isNew:false, isChanged:false}`. -/
theorem processProductChange_insert_failure :
    ∀ (lok : Bool) (now : String) (db : Db) (pid : String) (ep : ProductRow)
      (inc : List (String × JsVal)),
      ep.spec_hash ≠ some (generateSpecHash (buildSpecSnapshot inc)) →
      processProductChange false lok now db pid ep inc = (⟨false, false⟩, db) := by
  intro lok now db pid ep inc h
  simp only [processProductChange]
  rw [if_neg h]
  simp

/-- Witness for C3 at a concrete database and product. -/
theorem processProductChange_insert_failure_witness :
    processProductChange false true "t" (Db.mk [] [] []) "p1"
        (ProductRow.mk "p1" "b" "m" none none [])
        [("cert_ul", JsVal.bool true)] =
      (⟨false, false⟩, Db.mk [] [] []) :=
  processProductChange_insert_failure true "t" _ "p1" _ _ (by simp)

/-- Claim C10: `detectChanges` is reflexively `null` — diffing a snapshot
against itself yields `none` (never an empty list), and more generally the
result is `none` whenever every key's stringified old and new values
coincide. -/
theorem detectChanges_refl_none :
    (∀ s : List (String × JsVal), detectChanges s s = none) ∧
    (∀ e i : List (String × JsVal),
      (∀ k, jsString (jsGetD e k) = jsString (jsGetD i k)) →
      detectChanges e i = none) := by
  have main : ∀ e i : List (String × JsVal),
      (∀ k, jsString (jsGetD e k) = jsString (jsGetD i k)) →
      detectChanges e i = none := by
    intro e i h
    simp only [detectChanges]
    have hnil :
        (jsSetList (e.map Prod.fst ++ i.map Prod.fst)).filterMap
          (fun k =>
            if jsString (jsGetD e k) ≠ jsString (jsGetD i k) then
              some ⟨k, jsString (jsGetD e k), jsString (jsGetD i k)⟩
            else none) = ([] : List FieldChange) := by
      rw [List.filterMap_eq_nil_iff]
      intro k _
      simp [h k]
    rw [hnil]
    simp
  exact ⟨fun s => main s s (fun _ => rfl), main⟩

/-- Witness for C10: a reordered two-field snapshot diffs as `none`. -/
theorem detectChanges_refl_none_witness :
    detectChanges [("a", JsVal.bool true), ("b", JsVal.str "x")]
      [("b", JsVal.str "x"), ("a", JsVal.bool true)] = none := by
  apply detectChanges_refl_none.2
  intro k
  by_cases ha : k = "a"
  · subst ha; decide
  · by_cases hb : k = "b"
    · subst hb; decide
    · unfold jsGetD
      rw [jsGet_cons, jsGet_cons, if_neg (fun h => ha h.symm),
        if_neg (fun h => hb h.symm), jsGet_cons, jsGet_cons,
        if_neg (fun h => hb h.symm), if_neg (fun h => ha h.symm)]

/-! ### Attribute mapper (`src/unnamed/part_004`, attributeMap) -/

/-- One output entry of the attribute mapper. -/
structure MappedAttr where
  value : String
  unit : String
  sourceField : String
deriving DecidableEq

/-- One entry of the master mapping table. -/
structure AttributeMapping where
  standardName : String
  unit : String
  sourceNames : List String
deriving DecidableEq

/-- The master mapping table (12 standard attributes), verbatim from the
source (including the mojibake degree-sign unit of `beam_angle`). -/
def ATTRIBUTE_MAP : List AttributeMapping := [
  ⟨"lumens", "lm",
    ["luminous flux", "output", "brightness", "light output",
     "lumen output", "total lumens", "delivered lumens", "initial lumens",
     "lumens", "lm"]⟩,
  ⟨"watts", "W",
    ["power", "wattage", "input power", "system wattage",
     "system watts", "watts", "w", "power consumption"]⟩,
  ⟨"efficiency", "lm/W",
    ["efficacy", "efficiency", "lm/w", "lumens per watt",
     "luminous efficacy", "system efficacy"]⟩,
  ⟨"cct", "K",
    ["color temperature", "cct", "kelvin", "color temp",
     "correlated color temperature", "colour temperature"]⟩,
  ⟨"cri", "",
    ["color rendering", "cri", "ra", "color rendering index",
     "colour rendering index", "cri (ra)"]⟩,
  ⟨"lifespan", "hours",
    ["l70 lifetime", "rated life", "lifespan", "life hours",
     "expected life", "rated lifetime", "l70", "useful life"]⟩,
  ⟨"warranty", "years",
    ["warranty", "warranty period", "guarantee"]⟩,
  ⟨"ip_rating", "",
    ["ip rating", "ip", "ingress protection", "ip code",
     "environmental rating"]⟩,
  ⟨"voltage", "V",
    ["voltage", "input voltage", "operating voltage",
     "supply voltage", "voltage range"]⟩,
  ⟨"dimming", "",
    ["dimming", "dimmable", "dimming range", "dimming protocol",
     "dimming type"]⟩,
  ⟨"beam_angle", "Â°",
    ["beam angle", "beam spread", "beam distribution",
     "distribution", "optic"]⟩,
  ⟨"weight", "kg",
    ["weight", "net weight", "product weight"]⟩]

/-- `findMapping`: case-insensitive exact match of the (lowercased, trimmed)
source field name against the synonym lists. -/
def findMapping (sourceFieldName : String) : Option AttributeMapping :=
  let normalized := jsTrim (jsToLower sourceFieldName)
  ATTRIBUTE_MAP.find? (fun m => m.sourceNames.any (fun s => jsToLower s == normalized))

/-- `key.toLowerCase().replace(/\s+/g, '_')`: lowercase, then collapse each
maximal whitespace run into a single underscore. -/
def slugify (s : String) : String :=
  String.mk (((jsToLower s).data.foldl
    (fun (st : List Char × Bool) c =>
      if c.isWhitespace then (if st.2 then st.1 else st.1 ++ ['_'], true)
      else (st.1 ++ [c], false))
    ([], false)).1)

/-- JavaScript object assignment `result[k] = v` on the association-list
model: overwrite in place if the key exists, append otherwise. -/
def recSet (r : List (String × MappedAttr)) (k : String) (v : MappedAttr) :
    List (String × MappedAttr) :=
  if r.any (fun p => p.1 == k) then
    r.map (fun p => if p.1 = k then (k, v) else p)
  else r ++ [(k, v)]

/-- One loop iteration of `mapAttributes`. -/
def mapAttributesStep (result : List (String × MappedAttr))
    (kv : String × String) : List (String × MappedAttr) :=
  match findMapping kv.1 with
  | some m => recSet result m.standardName ⟨kv.2, m.unit, kv.1⟩
  | none => recSet result ("raw_" ++ slugify kv.1) ⟨kv.2, "", kv.1⟩

/-- `mapAttributes`: map a raw specs object to standardized attribute names,
preserving unmapped fields under a `raw_` key. -/
def mapAttributes (rawSpecs : List (String × String)) :
    List (String × MappedAttr) :=
  rawSpecs.foldl mapAttributesStep []

/-- The output key that an input field lands under. -/
def outKey (k : String) : String :=
  match findMapping k with
  | some m => m.standardName
  | none => "raw_" ++ slugify k

/-- The output entry that an input field produces. -/
def outVal (kv : String × String) : MappedAttr :=
  match findMapping kv.1 with
  | some m => ⟨kv.2, m.unit, kv.1⟩
  | none => ⟨kv.2, "", kv.1⟩

theorem mapAttributesStep_eq (result : List (String × MappedAttr))
    (kv : String × String) :
    mapAttributesStep result kv = recSet result (outKey kv.1) (outVal kv) := by
  unfold mapAttributesStep outKey outVal
  cases h : findMapping kv.1 <;> simp [h]

theorem recSet_length (r : List (String × MappedAttr)) (k : String)
    (v : MappedAttr) : (recSet r k v).length ≤ r.length + 1 := by
  unfold recSet
  split
  · rw [List.length_map]
    exact Nat.le_succ _
  · simp

theorem recSet_keys (r : List (String × MappedAttr)) (k : String)
    (v : MappedAttr) :
    (recSet r k v).map Prod.fst = r.map Prod.fst ∨
      (recSet r k v).map Prod.fst = r.map Prod.fst ++ [k] := by
  unfold recSet
  split
  · left
    rw [List.map_map]
    apply List.map_congr_left
    intro p _
    by_cases h : p.1 = k <;> simp [h]
  · right
    simp

theorem recSet_keys_mono (r : List (String × MappedAttr)) (k : String)
    (v : MappedAttr) {x : String} (hx : x ∈ r.map Prod.fst) :
    x ∈ (recSet r k v).map Prod.fst := by
  rcases recSet_keys r k v with h | h <;> rw [h]
  · exact hx
  · exact List.mem_append_left _ hx

theorem recSet_keys_self (r : List (String × MappedAttr)) (k : String)
    (v : MappedAttr) : k ∈ (recSet r k v).map Prod.fst := by
  unfold recSet
  split
  · next h =>
    rcases List.any_eq_true.mp h with ⟨p, hp, hpk⟩
    have hpk' : p.1 = k := by simpa using hpk
    refine List.mem_map.mpr ⟨(k, v), ?_, rfl⟩
    refine List.mem_map.mpr ⟨p, hp, ?_⟩
    rw [if_pos hpk']
  · simp

theorem mapFold_length (l : List (String × String))
    (init : List (String × MappedAttr)) :
    (l.foldl mapAttributesStep init).length ≤ init.length + l.length := by
  induction l generalizing init with
  | nil => simp
  | cons kv rest ih =>
    rw [List.foldl_cons]
    calc (rest.foldl mapAttributesStep (mapAttributesStep init kv)).length
        ≤ (mapAttributesStep init kv).length + rest.length := ih _
      _ ≤ (init.length + 1) + rest.length := by
          have := recSet_length init (outKey kv.1) (outVal kv)
          rw [mapAttributesStep_eq]
          omega
      _ = init.length + (rest.length + 1) := by omega

theorem mapFold_mem (l : List (String × String))
    (init : List (String × MappedAttr)) :
    (∀ x ∈ init.map Prod.fst, x ∈ (l.foldl mapAttributesStep init).map Prod.fst) ∧
    (∀ kv ∈ l, outKey kv.1 ∈ (l.foldl mapAttributesStep init).map Prod.fst) := by
  induction l generalizing init with
  | nil => simp
  | cons kv rest ih =>
    constructor
    · intro x hx
      rw [List.foldl_cons]
      refine (ih (mapAttributesStep init kv)).1 x ?_
      rw [mapAttributesStep_eq]
      exact recSet_keys_mono _ _ _ hx
    · intro kv' hkv'
      rw [List.foldl_cons]
      rcases List.mem_cons.mp hkv' with rfl | h
      · refine (ih (mapAttributesStep init kv')).1 (outKey kv'.1) ?_
        rw [mapAttributesStep_eq]
        exact recSet_keys_self _ _ _
      · exact (ih (mapAttributesStep init kv)).2 kv' h

/-- Counterexample to C4 as stated: the two input fields `"power"` and
`"watts"` both map to the standard attribute `watts`, so the second
overwrites the first and the output has 1 entry for 2 input fields —
the output entry count is not always equal to the input field count. -/
theorem mapAttributes_collision_counterexample :
    mapAttributes [("power", "10"), ("watts", "12")] =
        [("watts", ⟨"12", "W", "watts"⟩)] ∧
      (mapAttributes [("power", "10"), ("watts", "12")]).length ≠
        ([("power", "10"), ("watts", "12")] : List (String × String)).length := by
  constructor
  · decide
  · decide

/-- Claim C4 (amended): `mapAttributes` never fails and loses no field to a
missing mapping — every input field produces an output entry, under its
matched standard name or under a generated `raw_<slug>` key; however entries
whose output keys coincide overwrite each other, so the number of output
entries is at most (not always equal to) the number of input fields. -/
theorem mapAttributes_preserves_fields :
    ∀ rawSpecs : List (String × String),
      (mapAttributes rawSpecs).length ≤ rawSpecs.length ∧
      ∀ kv ∈ rawSpecs, outKey kv.1 ∈ (mapAttributes rawSpecs).map Prod.fst :=
  fun l =>
    ⟨by simpa using mapFold_length l [], (mapFold_mem l []).2⟩

/-- Witness for C4: the unmatched field "Some Weird Spec" is preserved under
`raw_some_weird_spec`. -/
theorem mapAttributes_preserves_fields_witness :
    "raw_some_weird_spec" ∈ (mapAttributes [("Some Weird Spec", "42")]).map Prod.fst ∧
      (mapAttributes [("Some Weird Spec", "42")]).length ≤ 1 := by
  have h := mapAttributes_preserves_fields [("Some Weird Spec", "42")]
  refine ⟨?_, by simpa using h.1⟩
  have h2 := h.2 ("Some Weird Spec", "42") (by simp)
  have hk : outKey "Some Weird Spec" = "raw_some_weird_spec" := by decide
  rwa [hk] at h2

/-! ### Geo resolver (`src/unnamed/part_004` geoResolver + brandGeoConfig
in `src/services/scraper/src/index.ts`) -/

/-- Product currency. -/
inductive Currency where
  | USD
  | CAD
deriving DecidableEq

/-- Product country. -/
inductive Country where
  | USA
  | Canada
deriving DecidableEq

/-- A `'ALL' | string[]` region selector. -/
inductive RegionSel where
  | all
  | listed (regions : List String)
deriving DecidableEq

/-- Per-brand geo configuration. -/
structure BrandGeo where
  hq_country : String
  hq_state : Option String
  sells_in_usa : Bool
  usa_states : RegionSel
  sells_in_canada : Bool
  canadian_provinces : RegionSel
  usd_currency : Bool
  cad_currency : Bool
deriving DecidableEq

/-- One geo expansion target. -/
structure GeoVariant where
  state_province : String
  currency : Currency
  country : Country
deriving DecidableEq

/-- The 50 US state abbreviations. -/
def ALL_US_STATES : List String :=
  ["AL", "AK", "AZ", "AR", "CA", "CO", "CT", "DE", "FL", "GA",
   "HI", "ID", "IL", "IN", "IA", "KS", "KY", "LA", "ME", "MD",
   "MA", "MI", "MN", "MS", "MO", "MT", "NE", "NV", "NH", "NJ",
   "NM", "NY", "NC", "ND", "OH", "OK", "OR", "PA", "RI", "SC",
   "SD", "TN", "TX", "UT", "VT", "VA", "WA", "WV", "WI", "WY"]

/-- The 10 Canadian province abbreviations. -/
def ALL_CA_PROVINCES : List String :=
  ["AB", "BC", "MB", "NB", "NL", "NS", "ON", "PE", "QC", "SK"]

/-- The static `BRAND_GEO` table. -/
def BRAND_GEO : List (String × BrandGeo) := [
  ("Acuity Brands",
    ⟨"US", some "GA", true, RegionSel.all, true,
      RegionSel.listed ["ON", "BC", "AB", "QC", "MB", "SK"], true, true⟩),
  ("Cree Lighting",
    ⟨"US", some "NC", true, RegionSel.all, true,
      RegionSel.listed ["ON", "BC", "AB", "QC"], true, true⟩),
  ("Philips",
    ⟨"NL", none, true, RegionSel.all, true, RegionSel.all, true, true⟩),
  ("GE Current",
    ⟨"US", some "OH", true, RegionSel.all, true,
      RegionSel.listed ["ON", "BC", "AB", "QC"], true, false⟩),
  ("Lithonia Lighting",
    ⟨"US", some "GA", true, RegionSel.all, true,
      RegionSel.listed ["ON", "BC", "AB", "QC"], true, false⟩),
  ("Leviton",
    ⟨"US", some "NY", true, RegionSel.all, true,
      RegionSel.listed ["ON", "BC", "AB", "QC", "MB"], true, true⟩),
  ("Hubbell Lighting",
    ⟨"US", some "CT", true, RegionSel.all, true,
      RegionSel.listed ["ON", "BC", "AB", "QC"], true, false⟩),
  ("RAB Lighting",
    ⟨"US", some "NJ", true, RegionSel.all, true,
      RegionSel.listed ["ON", "BC", "AB", "QC", "MB", "SK"], true, true⟩),
  ("Lumenera",
    ⟨"CA", none, true,
      RegionSel.listed ["CA", "TX", "FL", "NY", "IL", "WA", "OR"], true,
      RegionSel.all, false, true⟩)]

/-- `getBrandGeo`: resolve the brand's geo config, with the safe fallback
(USA/ALL states, no Canada) for unknown brands. -/
def getBrandGeo (brandName : String) : BrandGeo :=
  ((BRAND_GEO.find? (fun e => e.1 == brandName)).map Prod.snd).getD
    ⟨"US", none, true, RegionSel.all, false, RegionSel.listed [], true, false⟩

/-- Resolve a `'ALL' | string[]` selector against the full constant list. -/
def resolveSel : RegionSel → List String → List String
  | RegionSel.all, full => full
  | RegionSel.listed l, _ => l

/-- `getGeoVariants`: one USD/USA variant per US state the brand sells in,
then one CAD/Canada variant per Canadian province it sells in. -/
def getGeoVariants (brandName : String) : List GeoVariant :=
  let geo := getBrandGeo brandName
  (if geo.sells_in_usa then
    (resolveSel geo.usa_states ALL_US_STATES).map
      (fun s => ⟨s, Currency.USD, Country.USA⟩)
  else []) ++
  (if geo.sells_in_canada then
    (resolveSel geo.canadian_provinces ALL_CA_PROVINCES).map
      (fun p => ⟨p, Currency.CAD, Country.Canada⟩)
  else [])

/-- Counterexample to C5 as stated: the configured `'Acuity Brands'` entry
has `sells_in_canada: true` with six provinces, so the expansion yields 56
variants, not 50, and contains a CAD/Canada variant. -/
theorem getGeoVariants_acuity_counterexample :
    (getGeoVariants "Acuity Brands").length = 56 ∧
      (⟨"ON", Currency.CAD, Country.Canada⟩ : GeoVariant) ∈
        getGeoVariants "Acuity Brands" := by
  constructor
  · decide
  · decide

/-- Claim C5 (amended): `getGeoVariants "Acuity Brands"` returns the 50
USD/USA variants (one per US state, since `usa_states:'ALL'`) followed by 6
CAD/Canada variants for the configured provinces ON, BC, AB, QC, MB, SK —
56 variants in total, of which exactly the 50 state variants are
`currency:"USD", country:"USA"`. -/
theorem getGeoVariants_acuity :
    getGeoVariants "Acuity Brands" =
        ALL_US_STATES.map (fun s => ⟨s, Currency.USD, Country.USA⟩) ++
          (["ON", "BC", "AB", "QC", "MB", "SK"].map
            (fun p => ⟨p, Currency.CAD, Country.Canada⟩)) ∧
      ALL_US_STATES.length = 50 ∧
      (ALL_US_STATES.map
          (fun s => (⟨s, Currency.USD, Country.USA⟩ : GeoVariant))).all
        (fun v => v.currency == Currency.USD && v.country == Country.USA) = true := by
  refine ⟨by decide, by decide, by decide⟩

/-! ### Unit converter (`src/unnamed/part_005`, unitConverter)

The `from` patterns of the conversion-rule table are anchored
case-insensitive regexes; each is modelled by the Boolean test it denotes on
the lowercased unit string (`RegExp.test` searches anywhere, so the
unanchored alternation branches of the `ft|feet|foot` pattern become
prefix/substring/suffix tests). -/

/-- One conversion rule: source-unit test, target unit, multiplicative
factor. -/
structure ConversionRule where
  test : String → Bool
  toUnit : String
  factor : ℚ

/-- The static conversion-rule table. -/
def CONVERSIONS : List ConversionRule := [
  ⟨fun s => jsToLower s == "kw", "W", 1000⟩,
  ⟨fun s => decide ("kilowatt".data <+: (jsToLower s).data), "W", 1000⟩,
  ⟨fun s => jsToLower s == "klm", "lm", 1000⟩,
  ⟨fun s => decide ("kilolumen".data <+: (jsToLower s).data), "lm", 1000⟩,
  ⟨fun s => jsToLower s == "year" || jsToLower s == "years", "hours", 8760⟩,
  ⟨fun s => jsToLower s == "lb" || jsToLower s == "lbs", "kg", 0.4536⟩,
  ⟨fun s => decide ("pound".data <+: (jsToLower s).data), "kg", 0.4536⟩,
  ⟨fun s => jsToLower s == "oz", "kg", 0.02835⟩,
  ⟨fun s => jsToLower s == "mm", "mm", 1⟩,
  ⟨fun s => jsToLower s == "cm", "mm", 10⟩,
  ⟨fun s => jsToLower s == "in" || jsToLower s == "inch" || jsToLower s == "inches",
    "mm", 25.4⟩,
  ⟨fun s => decide ("ft".data <+: (jsToLower s).data) ||
      decide ("feet".data <:+: (jsToLower s).data) ||
      decide ("foot".data <:+ (jsToLower s).data), "mm", 304.8⟩]

/-- The rule lookup inside `convertUnit`. -/
def findRule (sourceUnit targetUnit : String) : Option ConversionRule :=
  CONVERSIONS.find? (fun r => r.test sourceUnit && (jsToLower r.toUnit == jsToLower targetUnit))

/-- `convertUnit`: same-unit (case-insensitive) short-circuits to the
unmodified value; otherwise apply the first matching rule's factor and round
to 2 decimals; unknown pairs give `null`. -/
def convertUnit (value : ℚ) (sourceUnit targetUnit : String) : Option ℚ :=
  if jsToLower sourceUnit == jsToLower targetUnit then some value
  else
    match findRule sourceUnit targetUnit with
    | some r => some (jsRound2 (value * r.factor))
    | none => none

/-- Numeric value of a digit run. -/
def digitsNat (ds : List Char) : ℕ :=
  ds.foldl (fun n c => 10 * n + (c.toNat - 48)) 0

/-- Digit run as a rational. -/
def digitsVal (ds : List Char) : ℚ :=
  (digitsNat ds : ℚ)

/-- `parseFloat` of a match of `\d+(\.\d+)?` starting at the head. -/
def readNum (l : List Char) : ℚ :=
  let ds := l.takeWhile Char.isDigit
  let rest := l.drop ds.length
  match rest with
  | '.' :: r2 =>
    let fs := r2.takeWhile Char.isDigit
    if fs.isEmpty then digitsVal ds
    else digitsVal ds + digitsVal fs / 10 ^ fs.length
  | _ => digitsVal ds

/-- First match of `-?\d+(\.\d+)?` in the character list, parsed. -/
def firstNumber : List Char → Option ℚ
  | [] => none
  | c :: rest =>
    if c.isDigit then some (readNum (c :: rest))
    else if c = '-' then
      match rest with
      | d :: _ => if d.isDigit then some (- readNum rest) else firstNumber rest
      | [] => none
    else firstNumber rest

/-- `extractNumeric`: strip commas, return the first signed decimal number,
or `null` if none. -/
def extractNumeric (s : String) : Option ℚ :=
  firstNumber (s.data.filter (fun c => c ≠ ','))

/-- A `[\d.]` character. -/
def isDigitDot (c : Char) : Bool :=
  c.isDigit || c = '.'

/-- Match `\s*(.+)` at the head of `after` with greedy backtracking on the
whitespace run; returns the captured group. -/
def bestWsSplit (after : List Char) : Option (List Char) :=
  let wsMax := (after.takeWhile Char.isWhitespace).length
  (List.range (wsMax + 1)).reverse.findSome? (fun m =>
    match after.drop m with
    | [] => none
    | c :: rest =>
      if c = '\n' then none
      else some ((c :: rest).takeWhile (fun d => d != '\n')))

/-- Match `[\d.]+\s*(.+)` whose `[\d.]+` run starts at the head of `l`,
backtracking the run greedily; returns the captured group. -/
def runSplits (l : List Char) : Option (List Char) :=
  let n := (l.takeWhile isDigitDot).length
  (List.range n).findSome? (fun i => bestWsSplit (l.drop (n - i)))

/-- First match of `[\d.]+\s*(.+)` anywhere in the list, returning the
capture of group 1. -/
def firstUnitMatch : List Char → Option (List Char)
  | [] => none
  | c :: rest =>
    if isDigitDot c then
      match runSplits (c :: rest) with
      | some cap => some cap
      | none => firstUnitMatch rest
    else firstUnitMatch rest

/-- `extractUnit`: strip commas, trim, capture the token after the first
numeric run, and trim the capture; empty string if there is none. -/
def extractUnit (s : String) : String :=
  let cleaned := jsTrim (String.mk (s.data.filter (fun c => c ≠ ',')))
  match firstUnitMatch cleaned.data with
  | some cap => jsTrim (String.mk cap)
  | none => ""

/-- The `{value, unit}` result of `parseAndConvert`. -/
structure ParsedValue where
  value : ℚ
  unit : String
deriving DecidableEq

/-- `parseAndConvert`: extract number and unit, convert; a bare number is
assumed to already be in the target unit; an unknown conversion returns the
number tagged with its original unit. -/
def parseAndConvert (rawValue : String) (targetUnit : String) : Option ParsedValue :=
  match extractNumeric rawValue with
  | none => none
  | some numeric =>
    let sourceUnit := extractUnit rawValue
    if sourceUnit == "" then some ⟨numeric, targetUnit⟩
    else
      match convertUnit numeric sourceUnit targetUnit with
      | some conv => some ⟨conv, targetUnit⟩
      | none => some ⟨numeric, sourceUnit⟩

/-- Counterexample to C6 as stated: the same-unit identity path returns the
value unrounded, so not every returned result is rounded to 2 decimal
places: `convertUnit(1.234, "mm", "mm")` returns `1.234`. -/
theorem convertUnit_not_rounded_counterexample :
    convertUnit (1.234 : ℚ) "mm" "mm" = some (1.234 : ℚ) ∧
      jsRound2 (1.234 : ℚ) ≠ (1.234 : ℚ) := by
  constructor
  · rfl
  · unfold jsRound2
    norm_num

/-- Claim C6 (amended): `convertUnit` returns the value unchanged (identity,
not rounded) when source and target unit agree case-insensitively, `null`
when no conversion rule matches the pair, and the factor-scaled value rounded
to 2 decimal places when a rule matches. -/
theorem convertUnit_contract :
    ∀ (v : ℚ) (s t : String),
      (jsToLower s = jsToLower t → convertUnit v s t = some v) ∧
      (jsToLower s ≠ jsToLower t → findRule s t = none → convertUnit v s t = none) ∧
      (∀ r : ConversionRule, jsToLower s ≠ jsToLower t → findRule s t = some r →
        convertUnit v s t = some (jsRound2 (v * r.factor))) := by
  intro v s t
  refine ⟨?_, ?_, ?_⟩
  · intro h
    unfold convertUnit
    rw [if_pos (beq_iff_eq.mpr h)]
  · intro h hn
    unfold convertUnit
    rw [if_neg (by simpa using h), hn]
  · intro r h hr
    unfold convertUnit
    rw [if_neg (by simpa using h), hr]

/-- Witness for C6: identity on `"W" → "w"`, `null` on an unknown pair, and
a rounded rule conversion `kW → W`. -/
theorem convertUnit_contract_witness :
    convertUnit (5 : ℚ) "W" "w" = some 5 ∧
      convertUnit (3 : ℚ) "xyz" "W" = none ∧
      convertUnit (2 : ℚ) "kW" "W" = some 2000 := by
  refine ⟨?_, ?_, ?_⟩
  · exact (convertUnit_contract 5 "W" "w").1 (by decide)
  · exact (convertUnit_contract 3 "xyz" "W").2.1 (by decide) rfl
  · have h := (convertUnit_contract 2 "kW" "W").2.2
      ⟨fun s => jsToLower s == "kw", "W", 1000⟩ (by decide) rfl
    rw [h]
    unfold jsRound2
    norm_num

/-- Claim C7: the two round-trip results —
`parseAndConvert("4,500 lm", "lm")` strips the thousands separator and keeps
the same-unit value `4500 lm`; `parseAndConvert("2 years", "hours")` converts
2 years to 17520 hours. -/
theorem parseAndConvert_roundtrip :
    parseAndConvert "4,500 lm" "lm" = some ⟨4500, "lm"⟩ ∧
      parseAndConvert "2 years" "hours" = some ⟨17520, "hours"⟩ := by
  constructor
  · have e1 : parseAndConvert "4,500 lm" "lm" =
        some ⟨digitsVal ['4', '5', '0', '0'], "lm"⟩ := rfl
    have e2 : digitsVal ['4', '5', '0', '0'] = (4500 : ℚ) := by
      have h : digitsNat ['4', '5', '0', '0'] = 4500 := by decide
      rw [digitsVal, h]
      norm_num
    rw [e1, e2]
  · have e1 : parseAndConvert "2 years" "hours" =
        some ⟨jsRound2 (digitsVal ['2'] * 8760), "hours"⟩ := rfl
    have e2 : digitsVal ['2'] = (2 : ℚ) := by
      have h : digitsNat ['2'] = 2 := by decide
      rw [digitsVal, h]
      norm_num
    rw [e1, e2]
    have e3 : jsRound2 ((2 : ℚ) * 8760) = 17520 := by
      unfold jsRound2
      norm_num
    rw [e3]

/-! ### Validator (`src/services/scraper/src/normalizer/validator.ts`)

A normalized product record is modelled as a total function from field name
to `JsVal` (a JavaScript object read: absent keys give `undefined`). -/

/-- A normalized product record. -/
def Product := String → JsVal

/-- One `(field, min, max, required)` validation rule. -/
structure ValidationRule where
  field : String
  min : ℚ
  max : ℚ
  required : Bool
deriving DecidableEq

/-- The static rule table for the 8 core numeric fields. -/
def VALIDATION_RULES : List ValidationRule := [
  ⟨"watts", 1, 2000, true⟩,
  ⟨"lumens", 50, 200000, true⟩,
  ⟨"efficiency", 10, 250, false⟩,
  ⟨"cct", 2000, 10000, false⟩,
  ⟨"cri", 50, 100, false⟩,
  ⟨"lifespan", 10000, 200000, false⟩,
  ⟨"warranty", 1, 25, false⟩,
  ⟨"price", 0.01, 50000, false⟩]

/-- The validator's missing-value test: `value === null || value ===
undefined || value === ''`. -/
def isMissing (v : JsVal) : Bool :=
  v == JsVal.null || v == JsVal.undef || v == JsVal.str ""

/-- `parseFloat` body after the optional sign: `\d+(\.\d+)?` at the head
(exponent suffixes are not modelled; no claim exercises them). -/
def parseFloatR (l : List Char) : Option (ℚ × List Char) :=
  let ip := l.takeWhile Char.isDigit
  let rest := l.drop ip.length
  match rest with
  | '.' :: r2 =>
    let fp := r2.takeWhile Char.isDigit
    if ip.isEmpty && fp.isEmpty then none
    else some (digitsVal ip + digitsVal fp / 10 ^ fp.length, r2.drop fp.length)
  | _ => if ip.isEmpty then none else some (digitsVal ip, rest)

/-- `parseFloat`: leading whitespace skipped, optional sign, longest valid
numeric prefix; `NaN` (= `none`) if no digits. -/
def jsParseFloat (s : String) : Option ℚ :=
  let l := s.data.dropWhile Char.isWhitespace
  match l with
  | '-' :: rest => (parseFloatR rest).map (fun x => -x.1)
  | '+' :: rest => (parseFloatR rest).map Prod.fst
  | _ => (parseFloatR l).map Prod.fst

/-- `Number(s)` on a string: trimmed empty string is `0`; otherwise the whole
string must be a signed decimal numeral, else `NaN` (= `none`). -/
def jsNumberOfString (s : String) : Option ℚ :=
  let l := (jsTrim s).data
  if l.isEmpty then some 0
  else
    let signed : Option (ℚ × List Char) :=
      match l with
      | '-' :: rest => (parseFloatR rest).map (fun x => (-x.1, x.2))
      | '+' :: rest => parseFloatR rest
      | _ => parseFloatR l
    match signed with
    | some (q, []) => some q
    | _ => none

/-- JavaScript truthiness of a primitive value (no `NaN` arises here since
numbers are exact rationals). -/
def jsTruthy : JsVal → Bool
  | JsVal.num q => decide (q ≠ 0)
  | JsVal.str s => s != ""
  | JsVal.bool b => b
  | JsVal.null => false
  | JsVal.undef => false

/-- `Number(v)` coercion; `none` models `NaN`. -/
def jsNumber : JsVal → Option ℚ
  | JsVal.num q => some q
  | JsVal.str s => jsNumberOfString s
  | JsVal.bool b => some (cond b 1 0)
  | JsVal.null => some 0
  | JsVal.undef => none

/-- `numValue` in the per-rule check: strings go through `parseFloat`,
numbers pass, anything else is non-numeric. -/
def ruleNumValue : JsVal → Option ℚ
  | JsVal.str s => jsParseFloat s
  | JsVal.num q => some q
  | _ => none

/-- Template-literal interpolation of a value. -/
def interpVal : JsVal → String
  | JsVal.str s => s
  | JsVal.num q => toString q
  | JsVal.bool b => cond b "true" "false"
  | JsVal.null => "null"
  | JsVal.undef => "undefined"

/-- Interpolation of a number (JS prints integers without a fraction; the
non-integer rendering is abstracted as `num/den`, which no claim depends
on). -/
def renderQ (q : ℚ) : String :=
  if q.den = 1 then toString q.num
  else toString q.num ++ "/" ++ toString q.den

/-- The error/warning messages one rule contributes for a product. -/
def ruleMessages (p : Product) (r : ValidationRule) : List String × List String :=
  let value := p r.field
  if r.required && isMissing value then
    (["Missing required field: " ++ r.field], [])
  else if isMissing value then ([], [])
  else
    match ruleNumValue value with
    | none => ([], ["Non-numeric value for " ++ r.field ++ ": " ++ interpVal value])
    | some q =>
      if q < r.min ∨ q > r.max then
        ([], [r.field ++ " value " ++ renderQ q ++ " is outside expected range [" ++
          renderQ r.min ++ ", " ++ renderQ r.max ++ "]"])
      else ([], [])

/-- The efficiency cross-check: when `watts` and `lumens` are truthy and
positive, compare a stated `efficiency` against `round(lumens/watts, 1)`
with tolerance 5. -/
def crossCheckWarnings (p : Product) : List String :=
  if jsTruthy (p "watts") && jsTruthy (p "lumens") then
    match jsNumber (p "watts"), jsNumber (p "lumens") with
    | some w, some lm =>
      if 0 < w ∧ 0 < lm then
        let calcEff := jsRound1 (lm / w)
        if jsTruthy (p "efficiency") then
          match jsNumber (p "efficiency") with
          | some stated =>
            if |stated - calcEff| > 5 then
              ["Stated efficiency (" ++ renderQ stated ++
                ") differs significantly from calculated (" ++ renderQ calcEff ++ " lm/W)"]
            else []
          | none => []
        else []
      else []
    | _, _ => []
  else []

/-- The validator's result record. -/
structure ValidationResult where
  isValid : Bool
  errors : List String
  warnings : List String
deriving DecidableEq

/-- `validateProduct`: run every rule in order collecting errors and
warnings, append the cross-check warnings, and gate validity on errors
only. -/
def validateProduct (p : Product) : ValidationResult :=
  let pairs := VALIDATION_RULES.map (ruleMessages p)
  let errors := (pairs.map Prod.fst).flatten
  let warnings := (pairs.map Prod.snd).flatten ++ crossCheckWarnings p
  ⟨errors.isEmpty, errors, warnings⟩

theorem ruleMessages_fst (p : Product) (r : ValidationRule) :
    (ruleMessages p r).1 =
      if r.required && isMissing (p r.field) then
        ["Missing required field: " ++ r.field]
      else [] := by
  unfold ruleMessages
  by_cases h : (r.required && isMissing (p r.field)) = true
  · rw [if_pos h, if_pos h]
  · rw [if_neg h, if_neg h]
    by_cases h2 : isMissing (p r.field) = true
    · rw [if_pos h2]
    · rw [if_neg h2]
      cases ruleNumValue (p r.field) with
      | none => rfl
      | some q =>
        dsimp only
        split <;> rfl

theorem validateProduct_errors (p : Product) :
    (validateProduct p).errors =
      (VALIDATION_RULES.map (fun r =>
        if r.required && isMissing (p r.field) then
          ["Missing required field: " ++ r.field]
        else [])).flatten := by
  show ((VALIDATION_RULES.map (ruleMessages p)).map Prod.fst).flatten = _
  rw [List.map_map]
  congr 1
  apply List.map_congr_left
  intro r _
  exact ruleMessages_fst p r

theorem isValid_eq_isEmpty (p : Product) :
    (validateProduct p).isValid = (validateProduct p).errors.isEmpty := rfl

theorem isValid_false_of_mem_errors {p : Product} {msg : String}
    (h : msg ∈ (validateProduct p).errors) : (validateProduct p).isValid = false := by
  rw [isValid_eq_isEmpty]
  cases he : (validateProduct p).errors with
  | nil => rw [he] at h; cases h
  | cons a l => rfl

theorem mem_errors_of_rule {p : Product} {r : ValidationRule}
    (hr : r ∈ VALIDATION_RULES)
    (h : (r.required && isMissing (p r.field)) = true) :
    ("Missing required field: " ++ r.field) ∈ (validateProduct p).errors := by
  rw [validateProduct_errors]
  refine List.mem_flatten.mpr ⟨["Missing required field: " ++ r.field], ?_, by simp⟩
  refine List.mem_map.mpr ⟨r, hr, ?_⟩
  rw [if_pos h]

/-- Claim C8: the validator gates only on required fields — a record whose
`watts` is absent is invalid with the error "Missing required field: watts"
(which mentions "watts"), while a record whose required fields `watts` and
`lumens` are present and numeric with `watts = 5000` (outside `[1, 2000]`)
is valid and carries the out-of-range warning. -/
theorem validateProduct_gate :
    (∀ p : Product, p "watts" = JsVal.undef →
      (validateProduct p).isValid = false ∧
        "Missing required field: watts" ∈ (validateProduct p).errors) ∧
    (∀ p : Product, p "watts" = JsVal.num 5000 →
      isMissing (p "lumens") = false →
      (∃ q, ruleNumValue (p "lumens") = some q) →
      (validateProduct p).isValid = true ∧
        "watts value 5000 is outside expected range [1, 2000]" ∈
          (validateProduct p).warnings) := by
  constructor
  · intro p hw
    have h1 : isMissing (p "watts") = true := by rw [hw]; rfl
    have herr : "Missing required field: watts" ∈ (validateProduct p).errors :=
      mem_errors_of_rule (List.mem_cons_self _ _) (by rw [h1]; rfl)
    exact ⟨isValid_false_of_mem_errors herr, herr⟩
  · intro p hw hlm _
    have h1 : isMissing (p "watts") = false := by rw [hw]; rfl
    have herr : (validateProduct p).errors = [] := by
      rw [validateProduct_errors]
      simp [VALIDATION_RULES, h1, hlm]
    have hwatts : ruleMessages p ⟨"watts", 1, 2000, true⟩ =
        ([], ["watts value 5000 is outside expected range [1, 2000]"]) := by
      unfold ruleMessages
      dsimp only
      rw [hw]
      decide
    refine ⟨?_, ?_⟩
    · rw [isValid_eq_isEmpty, herr]
      rfl
    · show _ ∈ ((VALIDATION_RULES.map (ruleMessages p)).map Prod.snd).flatten ++
        crossCheckWarnings p
      apply List.mem_append_left
      refine List.mem_flatten.mpr
        ⟨["watts value 5000 is outside expected range [1, 2000]"], ?_, by simp⟩
      refine List.mem_map.mpr ⟨ruleMessages p ⟨"watts", 1, 2000, true⟩, ?_, by rw [hwatts]⟩
      refine List.mem_map.mpr ⟨⟨"watts", 1, 2000, true⟩, List.mem_cons_self _ _, rfl⟩

/-- Witness for C8 at two concrete records. -/
theorem validateProduct_gate_witness :
    ((validateProduct (fun f =>
        if f = "lumens" then JsVal.num 100 else JsVal.undef)).isValid = false ∧
      "Missing required field: watts" ∈
        (validateProduct (fun f =>
          if f = "lumens" then JsVal.num 100 else JsVal.undef)).errors) ∧
    ((validateProduct (fun f =>
        if f = "watts" then JsVal.num 5000
        else if f = "lumens" then JsVal.num 1000
        else JsVal.undef)).isValid = true ∧
      "watts value 5000 is outside expected range [1, 2000]" ∈
        (validateProduct (fun f =>
          if f = "watts" then JsVal.num 5000
          else if f = "lumens" then JsVal.num 1000
          else JsVal.undef)).warnings) := by
  constructor
  · exact validateProduct_gate.1 _ rfl
  · exact validateProduct_gate.2 _ rfl rfl ⟨1000, rfl⟩

theorem ruleMessages_update {p : Product} {f : String}
    (hpf : p f = JsVal.str "") (r : ValidationRule) :
    ruleMessages (Function.update p f JsVal.undef) r = ruleMessages p r := by
  by_cases h : r.field = f
  · unfold ruleMessages
    rw [h, Function.update_same, hpf]
    by_cases hreq : r.required = true <;> simp [isMissing, hreq]
  · unfold ruleMessages
    rw [Function.update_noteq h]

theorem crossCheck_update {p : Product} {f : String}
    (hpf : p f = JsVal.str "") :
    crossCheckWarnings (Function.update p f JsVal.undef) = crossCheckWarnings p := by
  have hval : ∀ g, jsTruthy (Function.update p f JsVal.undef g) = jsTruthy (p g) := by
    intro g
    by_cases h : g = f
    · subst h
      rw [Function.update_same, hpf]
      rfl
    · rw [Function.update_noteq h]
  have hnum : ∀ g, jsTruthy (p g) = true →
      Function.update p f JsVal.undef g = p g := by
    intro g h
    by_cases hg : g = f
    · subst hg
      rw [hpf] at h
      simp [jsTruthy] at h
    · rw [Function.update_noteq hg]
  unfold crossCheckWarnings
  rw [hval "watts", hval "lumens"]
  by_cases hw : (jsTruthy (p "watts") && jsTruthy (p "lumens")) = true
  · have hw1 : jsTruthy (p "watts") = true := (Bool.and_eq_true _ _ |>.mp hw).1
    have hw2 : jsTruthy (p "lumens") = true := (Bool.and_eq_true _ _ |>.mp hw).2
    simp only [hnum "watts" hw1, hnum "lumens" hw2, hval "efficiency"]
    by_cases he : jsTruthy (p "efficiency") = true
    · simp only [hnum "efficiency" he]
    · have he' : jsTruthy (p "efficiency") = false := by simpa using he
      simp only [he', Bool.false_eq_true, if_false]
  · have hw' : (jsTruthy (p "watts") && jsTruthy (p "lumens")) = false := by
      simpa using hw
    simp only [hw', Bool.false_eq_true, if_false]

/-- Claim C9: an empty-string value behaves exactly like a missing value at
the validator's interface — replacing a field whose value is `""` by
`undefined` leaves the whole validation result unchanged; a required field
set to `""` contributes the 'Missing required field' error making the record
invalid; an optional field set to `""` is skipped with neither error nor
warning. -/
theorem validateProduct_empty_string :
    (∀ (p : Product) (f : String), p f = JsVal.str "" →
      validateProduct p = validateProduct (Function.update p f JsVal.undef)) ∧
    (∀ (p : Product) (r : ValidationRule), r ∈ VALIDATION_RULES →
      r.required = true → p r.field = JsVal.str "" →
      ("Missing required field: " ++ r.field) ∈ (validateProduct p).errors ∧
        (validateProduct p).isValid = false) ∧
    (∀ (p : Product) (r : ValidationRule), r.required = false →
      p r.field = JsVal.str "" → ruleMessages p r = ([], [])) := by
  refine ⟨?_, ?_, ?_⟩
  · intro p f hpf
    have h1 : VALIDATION_RULES.map (ruleMessages (Function.update p f JsVal.undef)) =
        VALIDATION_RULES.map (ruleMessages p) :=
      List.map_congr_left (fun r _ => ruleMessages_update hpf r)
    show (⟨_, _, _⟩ : ValidationResult) = ⟨_, _, _⟩
    rw [h1, crossCheck_update hpf]
  · intro p r hr hreq hpf
    have hmiss : isMissing (p r.field) = true := by rw [hpf]; rfl
    have herr := mem_errors_of_rule hr (by rw [hreq, hmiss]; rfl)
    exact ⟨herr, isValid_false_of_mem_errors herr⟩
  · intro p r hreq hpf
    unfold ruleMessages
    rw [hpf]
    simp [isMissing, hreq]

/-- Witness for C9 at concrete records: `watts=""` is invalid like a missing
`watts`; `price=""` contributes nothing. -/
theorem validateProduct_empty_string_witness :
    (validateProduct (fun g =>
        if g = "watts" then JsVal.str "" else JsVal.undef) =
      validateProduct (Function.update (fun g =>
        if g = "watts" then JsVal.str "" else JsVal.undef) "watts" JsVal.undef)) ∧
    ("Missing required field: watts" ∈
        (validateProduct (fun g =>
          if g = "watts" then JsVal.str "" else JsVal.undef)).errors ∧
      (validateProduct (fun g =>
        if g = "watts" then JsVal.str "" else JsVal.undef)).isValid = false) ∧
    ruleMessages (fun g => if g = "price" then JsVal.str "" else JsVal.undef)
      ⟨"price", 0.01, 50000, false⟩ = ([], []) := by
  refine ⟨?_, ?_, ?_⟩
  · exact validateProduct_empty_string.1 _ "watts" rfl
  · exact validateProduct_empty_string.2.1 _ ⟨"watts", 1, 2000, true⟩
      (List.mem_cons_self _ _) rfl rfl
  · exact validateProduct_empty_string.2.2 _ ⟨"price", 0.01, 50000, false⟩ rfl rfl

end BrightChoice
